import Mathlib

/-!
Shallow embedding of the request-dispatch core of an OpenAI HTTP client
library (`src/lib.rs`): the `OpenAiClient` handle, the five request-shape
traits (`JsonRequest`, `ByUrlRequest`, `GetRequest`, `FormRequest`,
`DownloadRequest`), the async conversion helper (`AsyncTryFrom` /
`AsyncTryInto` with its blanket impl), and the `file_to_part` helper.

The network is modelled as a function from the built HTTP request to a
transport result (`Except`), the async runtime by plain sequencing, JSON
(de)serialization by abstract `serialize`/`parse` functions carried by each
trait-impl record, and local-filesystem effects by explicit state passing.
Each operation additionally returns the list of observable side effects
(HTTP sends, file creations) in the order the source performs them, so that
claims about effect ordering ("before any network call") are statable.
-/

namespace OpenAiRs

/-- HTTP verb. Only GET and POST appear in `lib.rs` (the `builder` hook of
`ByUrlRequest` could supply another verb; the verb is a field of the impl
record). -/
inductive Method
  | get
  | post
deriving DecidableEq, Repr

/-- A multipart part as produced by `Part::stream_with_length(body, size).file_name(name)`:
a declared byte length, a file name, and the streamed content bytes. -/
structure Part where
  len : Nat
  fileName : String
  content : List Nat
deriving DecidableEq, Repr

/-- Embeds `reqwest::multipart::Form`: a bundle of parts. -/
abbrev MultipartForm := List Part

/-- The body attached to an outgoing request: nothing (GET), a serialized
JSON document (`.json(self)`), or a multipart form (`.multipart(form)`). -/
inductive RequestBody
  | empty
  | jsonBody (s : String)
  | formBody (f : MultipartForm)
deriving DecidableEq, Repr

/-- The HTTP request the library builds: verb, final URL, the bearer token
attached by `.bearer_auth(client.key.clone())`, and the body. -/
structure HttpRequest where
  method : Method
  url : String
  bearer : String
  body : RequestBody
deriving DecidableEq, Repr

/-- A server response: status code, the textual body that `.json::<T>()`
parses, and — for the download path — the byte-chunk stream
(`bytes_stream()`), each chunk either bytes or a mid-stream read error. -/
structure HttpResponse where
  status : Nat
  body : String
  chunks : List (Except String (List Nat))

/-- The transport: maps the built request to either a transport-level
failure of `.send()` or a response. -/
abbrev Server := HttpRequest → Except String HttpResponse

/-- Observable side effects, in the order the code performs them. File
writes of downloaded chunks are tracked through the filesystem state
instead of the event list. -/
inductive Event
  | httpSend (req : HttpRequest)
  | fileCreate (path : String)

/-- Embeds `reqwest::Client`: an opaque connection pool, identified by a token so
that handle construction can be stated; no pool behaviour is modelled. -/
structure Client where
  poolId : Nat
deriving DecidableEq, Repr

/-- Embeds `Client::new()`. -/
def Client.new : Client := ⟨0⟩

/-- Embeds the struct `OpenAiClient` with fields url, key and client. -/
structure OpenAiClient where
  url : String
  key : String
  client : Client
deriving DecidableEq, Repr

namespace OpenAiClient

/-- The constant `URL: &'static str = "https://api.openai.com/v1"`. -/
def URL : String := "https://api.openai.com/v1"

/-- Embeds `OpenAiClient::with_url_and_client(key, url, client)`. -/
def with_url_and_client (key url : String) (client : Client) : OpenAiClient :=
  { url := url, key := key, client := client }

/-- Embeds `OpenAiClient::with_client(key, client)`: delegates with the default URL. -/
def with_client (key : String) (client : Client) : OpenAiClient :=
  with_url_and_client key URL client

/-- Embeds `OpenAiClient::with_url(key, url)`: fresh client, given URL. -/
def with_url (key url : String) : OpenAiClient :=
  with_url_and_client key url Client.new

/-- Embeds `OpenAiClient::new(key)`: fresh client, default URL. -/
def new (key : String) : OpenAiClient :=
  with_client key Client.new

end OpenAiClient

/-- Modelled from the spec: `ApiResponse` lives in `src/structs.rs`, which is
not part of the provided sources. The spec describes it as "a generic wrapper
around either a successful typed payload or an error payload returned by the
remote service". -/
inductive ApiResponse (T : Type)
  | success (payload : T)
  | apiError (message : String)

/-- Boolean success test for `Except`, used to state "returns Ok". -/
def isOkE : Except ε α → Bool
  | .ok _ => true
  | .error _ => false

/-- An impl of `JsonRequest<TRes>` for `Req`: the endpoint constant plus the
`Serialize` impl of `Req` and the `DeserializeOwned` impl of
`ApiResponse<TRes>` (abstracted as `serialize` / `parse`). -/
structure JsonRequestImpl (Req TRes : Type) where
  ENDPOINT : String
  serialize : Req → String
  parse : String → Option (ApiResponse TRes)

namespace JsonRequestImpl

/-- The request `JsonRequest::run` builds: POST to
`client.url + Self::ENDPOINT`, bearer auth, `self` serialized as the JSON
body. -/
def request (J : JsonRequestImpl Req TRes) (self : Req) (client : OpenAiClient) :
    HttpRequest :=
  { method := .post, url := client.url ++ J.ENDPOINT, bearer := client.key,
    body := .jsonBody (J.serialize self) }

/-- Embeds `JsonRequest::run`: send the built request, then parse the body as the
envelope type; `?` propagates the send failure, a parse failure is the
`.json::<ApiResponse<TRes>>()` error. The status code is never examined. -/
def run (J : JsonRequestImpl Req TRes) (self : Req) (client : OpenAiClient)
    (server : Server) : Except String (ApiResponse TRes) × List Event :=
  let req := J.request self client
  match server req with
  | .error e => (.error e, [.httpSend req])
  | .ok res =>
    match J.parse res.body with
    | none => (.error "error decoding response body", [.httpSend req])
    | some r => (.ok r, [.httpSend req])

end JsonRequestImpl

/-- An impl of `ByUrlRequest<TRes>` for `Req`: endpoint and suffix constants,
the `WithRefId` projection `id`, the envelope parser, and the verb the
(overridable) `builder` uses — `get` by default. -/
structure ByUrlRequestImpl (Req TRes : Type) where
  ENDPOINT : String
  SUFFIX : String
  id : Req → String
  parse : String → Option (ApiResponse TRes)
  method : Method := .get

namespace ByUrlRequestImpl

/-- The line `final_url = client.url.to_owned()+Self::ENDPOINT+self.id()+Self::SUFFIX`. -/
def final_url (B : ByUrlRequestImpl Req TRes) (self : Req) (client : OpenAiClient) :
    String :=
  client.url ++ B.ENDPOINT ++ B.id self ++ B.SUFFIX

/-- The request `ByUrlRequest::run` builds via `Self::builder`. -/
def request (B : ByUrlRequestImpl Req TRes) (self : Req) (client : OpenAiClient) :
    HttpRequest :=
  { method := B.method, url := B.final_url self client, bearer := client.key,
    body := .empty }

/-- Embeds `ByUrlRequest::run`: send, then parse; the status code is never examined. -/
def run (B : ByUrlRequestImpl Req TRes) (self : Req) (client : OpenAiClient)
    (server : Server) : Except String (ApiResponse TRes) × List Event :=
  let req := B.request self client
  match server req with
  | .error e => (.error e, [.httpSend req])
  | .ok res =>
    match B.parse res.body with
    | none => (.error "error decoding response body", [.httpSend req])
    | some r => (.ok r, [.httpSend req])

end ByUrlRequestImpl

/-- An impl of `GetRequest` for `TRes` (the response type itself implements
the trait): endpoint constant and the envelope parser. -/
structure GetRequestImpl (TRes : Type) where
  ENDPOINT : String
  parse : String → Option (ApiResponse TRes)

namespace GetRequestImpl

/-- The request `GetRequest::get` builds: GET to `client.url + Self::ENDPOINT`,
bearer auth, no body, no identifier, no suffix. -/
def request (G : GetRequestImpl TRes) (client : OpenAiClient) : HttpRequest :=
  { method := .get, url := client.url ++ G.ENDPOINT, bearer := client.key,
    body := .empty }

/-- Embeds `GetRequest::get`: send, then parse; the status code is never examined. -/
def get (G : GetRequestImpl TRes) (client : OpenAiClient) (server : Server) :
    Except String (ApiResponse TRes) × List Event :=
  let req := G.request client
  match server req with
  | .error e => (.error e, [.httpSend req])
  | .ok res =>
    match G.parse res.body with
    | none => (.error "error decoding response body", [.httpSend req])
    | some r => (.ok r, [.httpSend req])

end GetRequestImpl

/-- An impl of `AsyncTryFrom<T>` for `U`: the async fallible constructor
(`async` is modelled by plain sequencing; the associated error type is
collapsed into `String` like every other error in this development). -/
structure AsyncTryFromImpl (T U : Type) where
  try_from : T → Except String U

/-- The blanket impl `impl<T, U> AsyncTryInto<U> for T where U: AsyncTryFrom<T>`:
`try_into(self)` is exactly `U::try_from(self).await`. -/
def AsyncTryFromImpl.try_into (inst : AsyncTryFromImpl T U) (self : T) :
    Except String U :=
  inst.try_from self

/-- An impl of `FormRequest<TRes>` for `Req`: endpoint constant, the
`AsyncTryInto<multipart::Form>` capability (held, as in every endpoint module,
through an `AsyncTryFrom` impl and the blanket `AsyncTryInto`), and the
envelope parser. `Clone` is modelled as the identity. -/
structure FormRequestImpl (Req TRes : Type) where
  ENDPOINT : String
  toForm : AsyncTryFromImpl Req MultipartForm
  parse : String → Option (ApiResponse TRes)

namespace FormRequestImpl

/-- The request `FormRequest::run` builds once the form conversion has
succeeded: POST to `client.url + Self::ENDPOINT`, bearer auth, the form as
multipart body. -/
def request (F : FormRequestImpl Req TRes) (form : MultipartForm)
    (client : OpenAiClient) : HttpRequest :=
  { method := .post, url := client.url ++ F.ENDPOINT, bearer := client.key,
    body := .formBody form }

/-- Embeds `FormRequest::run`: `AsyncTryInto::try_into(self.clone()).await?` is
awaited first — a conversion failure returns before anything is sent — then
the form is POSTed and the body parsed; the status code is never examined. -/
def run (F : FormRequestImpl Req TRes) (self : Req) (client : OpenAiClient)
    (server : Server) : Except String (ApiResponse TRes) × List Event :=
  match F.toForm.try_into self with
  | .error e => (.error e, [])
  | .ok form =>
    let req := F.request form client
    match server req with
    | .error e => (.error e, [.httpSend req])
    | .ok res =>
      match F.parse res.body with
      | none => (.error "error decoding response body", [.httpSend req])
      | some r => (.ok r, [.httpSend req])

end FormRequestImpl

/-- Embeds `reqwest::Response::error_for_status()`: an error exactly for client-error
(400–499) and server-error (500–599) status codes; informational, success and
redirection statuses pass through. -/
def error_for_status (res : HttpResponse) : Except String HttpResponse :=
  if 400 ≤ res.status ∧ res.status ≤ 599 then .error "HTTP status error" else .ok res

/-- Embeds `http::StatusCode::is_success`: the 2xx class. Used only to state claims
about "success" statuses; the code itself never calls it. -/
def isSuccessStatus (s : Nat) : Bool := 200 ≤ s && s ≤ 299

/-- An impl of `DownloadRequest` for `Req`: endpoint and (defaulted) suffix
constants and the `WithRefId` projection. -/
structure DownloadRequestImpl (Req : Type) where
  ENDPOINT : String
  SUFFIX : String := ""
  id : Req → String

/-- Local filesystem contents: which paths hold which bytes. Download target
paths are plain strings, as in `download_to_file(&self, client, target_path: &str)`. -/
abbrev FileSystemState := String → Option (List Nat)

/-- The environment's answer to local write effects: whether
`File::create(path)` succeeds, and whether `write_all` of given bytes to the
open target file succeeds. -/
structure Disk where
  createOk : String → Bool
  writeOk : String → List Nat → Bool

namespace DownloadRequestImpl

/-- The request `DownloadRequest::download` builds: GET to
`client.url + Self::ENDPOINT + self.id() + Self::SUFFIX`, bearer auth. -/
def request (D : DownloadRequestImpl Req) (self : Req) (client : OpenAiClient) :
    HttpRequest :=
  { method := .get, url := client.url ++ D.ENDPOINT ++ D.id self ++ D.SUFFIX,
    bearer := client.key, body := .empty }

/-- Embeds `DownloadRequest::download`: send, `?` on transport failure,
`.error_for_status()?`, then expose `bytes_stream()` — the chunk list — lazily.
No chunk is consumed here. -/
def download (D : DownloadRequestImpl Req) (self : Req) (client : OpenAiClient)
    (server : Server) :
    Except String (List (Except String (List Nat))) × List Event :=
  let req := D.request self client
  match server req with
  | .error e => (.error e, [.httpSend req])
  | .ok res =>
    match error_for_status res with
    | .error e => (.error e, [.httpSend req])
    | .ok res => (.ok res.chunks, [.httpSend req])

end DownloadRequestImpl

/-- The `while let Some(chunk) = stream.next().await` loop of
`download_to_file`: each chunk is `?`-checked (a mid-stream read failure
aborts), then `file.write_all(&chunk?).await?` appends it to the target file.
Writes that succeed extend the target path's contents. -/
def write_chunks (disk : Disk) (target : String) :
    FileSystemState → List (Except String (List Nat)) →
    Except String Unit × FileSystemState
  | fs, [] => (.ok (), fs)
  | fs, chunk :: rest =>
    match chunk with
    | .error e => (.error e, fs)
    | .ok bytes =>
      if disk.writeOk target bytes then
        write_chunks disk target
          (fun p => if p = target then (fs p).map (fun c => c ++ bytes) else fs p)
          rest
      else (.error "file write failed", fs)

namespace DownloadRequestImpl

/-- Embeds `DownloadRequest::download_to_file`: `File::create(target_path).await?`
FIRST — creating the target file and truncating any existing contents — then
`self.download(client).await?`, then the chunk-write loop. Returns the
result, the final filesystem state, and the event trace (file writes are
reflected in the state, not the trace). -/
def download_to_file (D : DownloadRequestImpl Req) (self : Req)
    (client : OpenAiClient) (server : Server) (disk : Disk)
    (fs : FileSystemState) (target_path : String) :
    Except String Unit × FileSystemState × List Event :=
  if disk.createOk target_path then
    let fs1 : FileSystemState := fun p => if p = target_path then some [] else fs p
    let dl := D.download self client server
    match dl.1 with
    | .error e => (.error e, fs1, .fileCreate target_path :: dl.2)
    | .ok chunks =>
      let wr := write_chunks disk target_path fs1 chunks
      (wr.1, wr.2, .fileCreate target_path :: dl.2)
  else (.error "could not create file", fs, [])

end DownloadRequestImpl

/-- Embeds `std::ffi::OsStr`: all the model needs is `to_str()`, which is `none`
exactly for names that are not valid Unicode. -/
structure OsString where
  to_str : Option String
deriving DecidableEq, Repr

/-- Embeds `std::path::PathBuf`: all `file_to_part` uses is `file_name()`, which is
`none` when the path has no final component (e.g. ends in `..`). `raw` keeps
distinct paths distinct as filesystem keys. -/
structure FsPath where
  raw : String
  file_name : Option OsString
deriving DecidableEq, Repr

/-- Embeds `std::fs::Metadata`: only `len()` is used. -/
structure FileMeta where
  len : Nat
deriving DecidableEq, Repr

/-- An opened `tokio::fs::File`: its metadata query (which may fail) and its
streamed contents. -/
structure FileHandle where
  metadata : Except String FileMeta
  content : List Nat

/-- The environment for uploads: what `File::open` returns at each path
(an error, e.g. for a missing file, or a handle). -/
structure UploadFs where
  openFile : FsPath → Except String FileHandle

/-- Embeds `file_to_part`: resolve `path.file_name()` (error `"filename is not full"`
when absent), `to_str()` it (error `"non unicode filename"` when not Unicode),
`File::open(path)` (`?`), read `metadata().len()` (`?`), then wrap the content
as a streamed part with that declared length and file name. -/
def file_to_part (fs : UploadFs) (path : FsPath) : Except String Part :=
  match path.file_name with
  | none => .error "filename is not full"
  | some os =>
    match os.to_str with
    | none => .error "non unicode filename"
    | some name =>
      match fs.openFile path with
      | .error e => .error e
      | .ok file =>
        match file.metadata with
        | .error e => .error e
        | .ok meta => .ok { len := meta.len, fileName := name, content := file.content }

/-- Modelled from the spec: `ModelRequest` is defined in `src/structs.rs`,
which is not part of the provided sources; it derives `WithRefId`, exposing a
resource-identifier string. -/
structure ModelRequest where
  id : String
deriving DecidableEq, Repr

/-- Modelled from the spec: `Model` is the response payload defined in
`src/structs.rs` (not included); its shape is dictated by the remote service
and is opaque here. -/
inductive Model
  | mk
deriving DecidableEq, Repr

/-- Modelled from the spec: `ModelsResponse` is the list-models payload
defined in `src/structs.rs` (not included); opaque here. -/
inductive ModelsResponse
  | mk
deriving DecidableEq, Repr

/-- The instance `impl ByUrlRequest<Model> for ModelRequest` with endpoint `"/models/"` and empty suffix,
with the default GET builder; the envelope parser is a parameter since the
JSON shapes live outside `lib.rs`. -/
def ModelRequest.byUrlImpl (parse : String → Option (ApiResponse Model)) :
    ByUrlRequestImpl ModelRequest Model :=
  { ENDPOINT := "/models/", SUFFIX := "", id := fun r => r.id, parse := parse }

/-- The instance `impl GetRequest for ModelsResponse` with endpoint `"/models"`. -/
def ModelsResponse.getImpl (parse : String → Option (ApiResponse ModelsResponse)) :
    GetRequestImpl ModelsResponse :=
  { ENDPOINT := "/models", parse := parse }

/-- Whether an event carries the given bearer credential (file events
trivially do). -/
def Event.bearerIs (key : String) : Event → Prop
  | .httpSend r => r.bearer = key
  | .fileCreate _ => True

/-! ## Concrete instances used by witnesses and counterexamples -/

/-- A concrete upload path whose name is valid Unicode. -/
def demoPath : FsPath :=
  { raw := "/tmp/data.bin", file_name := some { to_str := some "data.bin" } }

/-- A concrete filesystem holding a three-byte file at `demoPath`. -/
def demoUploadFs : UploadFs :=
  { openFile := fun p =>
      if p = demoPath then .ok { metadata := .ok { len := 3 }, content := [1, 2, 3] }
      else .error "No such file or directory (os error 2)" }

/-- A concrete JSON-request impl. -/
def demoJson : JsonRequestImpl Nat Nat :=
  { ENDPOINT := "/completions", serialize := fun n => toString n,
    parse := fun s => if s = "ok" then some (.success 0) else none }

/-- A concrete form-request impl whose conversion always yields the empty
form. -/
def demoForm : FormRequestImpl Nat Nat :=
  { ENDPOINT := "/files", toForm := { try_from := fun _ => .ok [] },
    parse := fun s => if s = "ok" then some (.success 0) else none }

/-- A parseable-body response with a success status. -/
def respOk200 : HttpResponse := { status := 200, body := "ok", chunks := [] }

/-- The same body with a server-error status. -/
def respOk500 : HttpResponse := { status := 500, body := "ok", chunks := [] }

/-- A concrete download-request impl: the file-content endpoint shape. -/
def dlDemo : DownloadRequestImpl String :=
  { ENDPOINT := "/files/", SUFFIX := "/content", id := fun s => s }

/-- The response for a non-existent remote identifier. -/
def respNotFound : HttpResponse := { status := 404, body := "", chunks := [] }

/-- A server on which the identifier never exists: every request gets 404. -/
def srvNotFound : Server := fun _ => .ok respNotFound

/-- A 304 Not Modified response that still carries body chunks. -/
def respNotModified : HttpResponse :=
  { status := 304, body := "", chunks := [.ok [1, 2]] }

/-- A server answering 304 to everything. -/
def srvNotModified : Server := fun _ => .ok respNotModified

/-- A success response whose byte stream fails mid-way. -/
def respChunkFail : HttpResponse :=
  { status := 200, body := "", chunks := [.ok [1], .error "connection reset"] }

/-- A server whose response stream fails mid-way. -/
def srvChunkFail : Server := fun _ => .ok respChunkFail

/-- A local disk on which file creation and writes always succeed. -/
def diskFree : Disk := { createOk := fun _ => true, writeOk := fun _ _ => true }

/-- An empty local filesystem. -/
def fsEmpty : FileSystemState := fun _ => none

/-- A filesystem with pre-existing content at `"out.bin"`. -/
def fsOld : FileSystemState :=
  fun p => if p = "out.bin" then some [9, 9] else none

/-- A path to a file that does not exist on `missingFs`. -/
def missingPath : FsPath :=
  { raw := "/tmp/missing.png", file_name := some { to_str := some "missing.png" } }

/-- A filesystem on which every open fails as a missing file does. -/
def missingFs : UploadFs :=
  { openFile := fun _ => .error "No such file or directory (os error 2)" }

/-- A concrete file-upload form request whose multipart conversion reads the
local file at `missingPath` through `file_to_part`. -/
def demoUploadForm : FormRequestImpl Unit Nat :=
  { ENDPOINT := "/images/edits",
    toForm :=
      { try_from := fun _ => (file_to_part missingFs missingPath).map (fun p => [p]) },
    parse := fun _ => none }

/-! ## Helper lemmas on the event traces -/

@[simp]
theorem isOkE_ok (a : α) : isOkE (Except.ok a : Except ε α) = true := rfl

@[simp]
theorem isOkE_error (e : ε) : isOkE (Except.error e : Except ε α) = false := rfl

theorem JsonRequestImpl.json_run_trace {Req TRes : Type} (J : JsonRequestImpl Req TRes)
    (self : Req) (client : OpenAiClient) (server : Server) :
    (J.run self client server).2 = [Event.httpSend (J.request self client)] := by
  unfold run
  cases hs : server (J.request self client) with
  | error e => simp [hs]
  | ok res => cases hp : J.parse res.body <;> simp [hs, hp]

theorem ByUrlRequestImpl.by_url_run_trace {Req TRes : Type} (B : ByUrlRequestImpl Req TRes)
    (self : Req) (client : OpenAiClient) (server : Server) :
    (B.run self client server).2 = [Event.httpSend (B.request self client)] := by
  unfold run
  cases hs : server (B.request self client) with
  | error e => simp [hs]
  | ok res => cases hp : B.parse res.body <;> simp [hs, hp]

theorem GetRequestImpl.get_trace {TRes : Type} (G : GetRequestImpl TRes)
    (client : OpenAiClient) (server : Server) :
    (G.get client server).2 = [Event.httpSend (G.request client)] := by
  unfold get
  cases hs : server (G.request client) with
  | error e => simp [hs]
  | ok res => cases hp : G.parse res.body <;> simp [hs, hp]

theorem FormRequestImpl.run_trace_sub {Req TRes : Type} (F : FormRequestImpl Req TRes)
    (self : Req) (client : OpenAiClient) (server : Server) :
    ∀ e ∈ (F.run self client server).2, ∃ form,
      F.toForm.try_into self = .ok form ∧ e = Event.httpSend (F.request form client) := by
  intro e he
  unfold run at he
  cases htf : F.toForm.try_into self with
  | error er => rw [htf] at he; simp at he
  | ok form =>
    rw [htf] at he
    refine ⟨form, rfl, ?_⟩
    cases hs : server (F.request form client) with
    | error er => simp only [hs] at he; simpa using he
    | ok res =>
      cases hp : F.parse res.body <;> simp only [hs, hp] at he <;> simpa using he

theorem DownloadRequestImpl.download_trace {Req : Type} (D : DownloadRequestImpl Req)
    (self : Req) (client : OpenAiClient) (server : Server) :
    (D.download self client server).2 = [Event.httpSend (D.request self client)] := by
  unfold download
  cases hs : server (D.request self client) with
  | error e => simp [hs]
  | ok res =>
    simp only [hs]
    unfold error_for_status
    split <;> simp

/-! ## Helper lemmas on downloads and chunk writing -/

theorem DownloadRequestImpl.download_fst_of_server_error {Req : Type}
    (D : DownloadRequestImpl Req) (self : Req) (client : OpenAiClient)
    (server : Server) (e : String)
    (hs : server (D.request self client) = .error e) :
    (D.download self client server).1 = .error e := by
  unfold download
  simp [hs]

theorem DownloadRequestImpl.download_fst_of_error_status {Req : Type}
    (D : DownloadRequestImpl Req) (self : Req) (client : OpenAiClient)
    (server : Server) (res : HttpResponse)
    (hs : server (D.request self client) = .ok res)
    (h4 : 400 ≤ res.status) (h5 : res.status ≤ 599) :
    (D.download self client server).1 = .error "HTTP status error" := by
  unfold download
  simp only [hs]
  unfold error_for_status
  rw [if_pos ⟨h4, h5⟩]

theorem DownloadRequestImpl.download_fst_of_pass_status {Req : Type}
    (D : DownloadRequestImpl Req) (self : Req) (client : OpenAiClient)
    (server : Server) (res : HttpResponse)
    (hs : server (D.request self client) = .ok res)
    (hp : ¬(400 ≤ res.status ∧ res.status ≤ 599)) :
    (D.download self client server).1 = .ok res.chunks := by
  unfold download
  simp only [hs]
  unfold error_for_status
  rw [if_neg hp]

theorem DownloadRequestImpl.download_to_file_create_fail {Req : Type}
    (D : DownloadRequestImpl Req) (self : Req) (client : OpenAiClient)
    (server : Server) (disk : Disk) (fs : FileSystemState) (target : String)
    (hc : disk.createOk target = false) :
    D.download_to_file self client server disk fs target =
      (.error "could not create file", fs, []) := by
  unfold download_to_file
  simp [hc]

theorem DownloadRequestImpl.download_to_file_dl_error {Req : Type}
    (D : DownloadRequestImpl Req) (self : Req) (client : OpenAiClient)
    (server : Server) (disk : Disk) (fs : FileSystemState) (target : String)
    (hc : disk.createOk target = true) (e : String)
    (hd : (D.download self client server).1 = .error e) :
    D.download_to_file self client server disk fs target =
      (.error e, fun p => if p = target then some [] else fs p,
        .fileCreate target :: (D.download self client server).2) := by
  unfold download_to_file
  simp [hc, hd]

theorem DownloadRequestImpl.download_to_file_dl_ok {Req : Type}
    (D : DownloadRequestImpl Req) (self : Req) (client : OpenAiClient)
    (server : Server) (disk : Disk) (fs : FileSystemState) (target : String)
    (hc : disk.createOk target = true)
    (chunks : List (Except String (List Nat)))
    (hd : (D.download self client server).1 = .ok chunks) :
    D.download_to_file self client server disk fs target =
      ((write_chunks disk target
          (fun p => if p = target then some [] else fs p) chunks).1,
       (write_chunks disk target
          (fun p => if p = target then some [] else fs p) chunks).2,
       .fileCreate target :: (D.download self client server).2) := by
  unfold download_to_file
  simp [hc, hd]

theorem write_chunks_congr (disk : Disk) (target : String)
    (chunks : List (Except String (List Nat))) :
    ∀ fa fb : FileSystemState, fa target = fb target →
      (write_chunks disk target fa chunks).1 =
        (write_chunks disk target fb chunks).1 ∧
      (write_chunks disk target fa chunks).2 target =
        (write_chunks disk target fb chunks).2 target := by
  induction chunks with
  | nil => intro fa fb h; exact ⟨rfl, h⟩
  | cons chunk rest ih =>
    intro fa fb h
    cases chunk with
    | error e => exact ⟨rfl, h⟩
    | ok bytes =>
      unfold write_chunks
      cases hw : disk.writeOk target bytes with
      | false => simp only [hw]; exact ⟨rfl, h⟩
      | true =>
        simp only [hw, if_true]
        exact ih _ _ (by simp [h])

theorem write_chunks_keeps_some (disk : Disk) (target : String)
    (chunks : List (Except String (List Nat))) :
    ∀ (fs : FileSystemState) (c : List Nat), fs target = some c →
      ∃ d, (write_chunks disk target fs chunks).2 target = some d := by
  induction chunks with
  | nil => intro fs c h; exact ⟨c, h⟩
  | cons chunk rest ih =>
    intro fs c h
    cases chunk with
    | error e => exact ⟨c, h⟩
    | ok bytes =>
      unfold write_chunks
      cases hw : disk.writeOk target bytes with
      | false => simp only [hw]; exact ⟨c, h⟩
      | true =>
        simp only [hw, if_true]
        exact ih _ (c ++ bytes) (by simp [h])

theorem write_chunks_error_of_mem (disk : Disk) (target : String)
    (chunks : List (Except String (List Nat))) :
    ∀ e : String, Except.error e ∈ chunks →
      ∀ fs : FileSystemState, isOkE (write_chunks disk target fs chunks).1 = false := by
  induction chunks with
  | nil => intro e h; cases h
  | cons chunk rest ih =>
    intro e h fs
    cases chunk with
    | error e2 => rfl
    | ok bytes =>
      have hm : Except.error e ∈ rest := by
        cases h with
        | tail _ h2 => exact h2
      unfold write_chunks
      cases hw : disk.writeOk target bytes with
      | false => simp [hw]
      | true =>
        simp only [hw, if_true]
        exact ih e hm _

/-! ## Theorems -/

/-- C7: for every pair of types `T`, `U` with `U: AsyncTryFrom<T>`, the
blanket `AsyncTryInto` impl makes the reversed-direction call `t.try_into()`
return exactly the same result as the direct call `U::try_from(t)`, for every
input value. -/
theorem async_try_into_agrees_with_try_from {T U : Type}
    (inst : AsyncTryFromImpl T U) (t : T) :
    inst.try_into t = inst.try_from t := rfl

/-- C3: a `ByUrlRequest` run sends exactly one request, whose URL is the
character-for-character concatenation `base_url ++ ENDPOINT ++ id ++ SUFFIX`
with no separators inserted; for the `ModelRequest` instance (`"/models/"`,
suffix `""`) with identifier `"gpt-x"`, the path appended to the base URL is
`"/models/gpt-x"`. -/
theorem by_url_request_url_is_exact_concat {Req TRes : Type}
    (B : ByUrlRequestImpl Req TRes) (self : Req) (client : OpenAiClient)
    (server : Server)
    (parse : String → Option (ApiResponse Model)) (m : ModelRequest)
    (hid : m.id = "gpt-x") :
    (B.run self client server).2 = [Event.httpSend (B.request self client)] ∧
    (B.request self client).url =
      client.url ++ B.ENDPOINT ++ B.id self ++ B.SUFFIX ∧
    (ModelRequest.byUrlImpl parse).final_url m client =
      client.url ++ "/models/gpt-x" := by
  refine ⟨?_, rfl, ?_⟩
  · unfold ByUrlRequestImpl.run
    cases hs : server (B.request self client) with
    | error e => simp [hs]
    | ok res => cases hp : B.parse res.body <;> simp [hs, hp]
  · simp only [ModelRequest.byUrlImpl, ByUrlRequestImpl.final_url, hid]
    rw [String.append_empty, String.append_assoc,
      (by decide : "/models/" ++ "gpt-x" = "/models/gpt-x")]

/-- Witness for C3 at a concrete client, identifier and server. -/
theorem by_url_request_url_is_exact_concat_witness :
    ((ModelRequest.byUrlImpl (fun _ => none)).run ⟨"gpt-x"⟩
        (OpenAiClient.new "k") (fun _ => .error "net down")).2 =
      [Event.httpSend ((ModelRequest.byUrlImpl (fun _ => none)).request ⟨"gpt-x"⟩
        (OpenAiClient.new "k"))] ∧
    ((ModelRequest.byUrlImpl (fun _ => none)).request ⟨"gpt-x"⟩
        (OpenAiClient.new "k")).url =
      (OpenAiClient.new "k").url ++ "/models/" ++ "gpt-x" ++ "" ∧
    (ModelRequest.byUrlImpl (fun _ => none)).final_url ⟨"gpt-x"⟩
        (OpenAiClient.new "k") =
      (OpenAiClient.new "k").url ++ "/models/gpt-x" :=
  by_url_request_url_is_exact_concat (ModelRequest.byUrlImpl (fun _ => none))
    ⟨"gpt-x"⟩ (OpenAiClient.new "k") (fun _ => .error "net down")
    (fun _ => none) ⟨"gpt-x"⟩ rfl

/-- C6: `file_to_part` succeeds exactly when the path has a file-name
component, that name is valid Unicode, the file opens, and its metadata is
readable; in that case the part carries the file's byte length (from the
metadata) and its file name. -/
theorem file_to_part_ok_characterisation (ufs : UploadFs) (path : FsPath) :
    (isOkE (file_to_part ufs path) = true ↔
      ∃ os name file meta, path.file_name = some os ∧ os.to_str = some name ∧
        ufs.openFile path = .ok file ∧ file.metadata = .ok meta) ∧
    (∀ os name file meta, path.file_name = some os → os.to_str = some name →
      ufs.openFile path = .ok file → file.metadata = .ok meta →
      file_to_part ufs path =
        .ok { len := meta.len, fileName := name, content := file.content }) := by
  have hstep : ∀ os name file meta, path.file_name = some os →
      os.to_str = some name → ufs.openFile path = .ok file →
      file.metadata = .ok meta →
      file_to_part ufs path =
        .ok { len := meta.len, fileName := name, content := file.content } := by
    intro os name file meta hfn hts hop hm
    simp [file_to_part, hfn, hts, hop, hm]
  refine ⟨⟨?_, ?_⟩, hstep⟩
  · intro h
    cases hfn : path.file_name with
    | none => simp [file_to_part, hfn] at h
    | some os =>
      cases hts : os.to_str with
      | none => simp [file_to_part, hfn, hts] at h
      | some name =>
        cases hop : ufs.openFile path with
        | error e => simp [file_to_part, hfn, hts, hop] at h
        | ok file =>
          cases hm : file.metadata with
          | error e => simp [file_to_part, hfn, hts, hop, hm] at h
          | ok meta => exact ⟨os, name, file, meta, rfl, hts, rfl, hm⟩
  · rintro ⟨os, name, file, meta, hfn, hts, hop, hm⟩
    rw [hstep os name file meta hfn hts hop hm]
    rfl

/-- Witness for C6: on the concrete filesystem the conversion yields the
part with the file's length and name. -/
theorem file_to_part_ok_characterisation_witness :
    file_to_part demoUploadFs demoPath =
      .ok { len := 3, fileName := "data.bin", content := [1, 2, 3] } :=
  (file_to_part_ok_characterisation demoUploadFs demoPath).2
    { to_str := some "data.bin" } "data.bin"
    { metadata := .ok { len := 3 }, content := [1, 2, 3] } { len := 3 }
    rfl rfl (by simp [demoUploadFs]) rfl

/-- C2: neither `JsonRequest::run` nor `FormRequest::run` inspects the HTTP
status code: two responses with the same body but any two statuses produce
the same result, and the result is `Ok` exactly when the send succeeded and
the body parsed as the envelope type (for the form variant, when additionally
the form conversion succeeded — without it nothing is ever sent). -/
theorem json_and_form_run_ignore_status {Req TRes FReq FRes : Type}
    (J : JsonRequestImpl Req TRes) (self : Req)
    (F : FormRequestImpl FReq FRes) (fself : FReq) (client : OpenAiClient) :
    (∀ r1 r2 : HttpResponse, r1.body = r2.body →
      (J.run self client (fun _ => .ok r1)).1 =
        (J.run self client (fun _ => .ok r2)).1 ∧
      (F.run fself client (fun _ => .ok r1)).1 =
        (F.run fself client (fun _ => .ok r2)).1) ∧
    (∀ server : Server,
      (isOkE (J.run self client server).1 = true ↔
        ∃ res, server (J.request self client) = .ok res ∧
          (J.parse res.body).isSome = true) ∧
      (isOkE (F.run fself client server).1 = true ↔
        ∃ form res, F.toForm.try_into fself = .ok form ∧
          server (F.request form client) = .ok res ∧
          (F.parse res.body).isSome = true)) := by
  constructor
  · intro r1 r2 hb
    constructor
    · unfold JsonRequestImpl.run
      simp only [hb]
    · unfold FormRequestImpl.run
      cases htf : F.toForm.try_into fself with
      | error e => simp
      | ok form => simp only [hb]
  · intro server
    constructor
    · unfold JsonRequestImpl.run
      cases hs : server (J.request self client) with
      | error e => simp [hs]
      | ok res => cases hp : J.parse res.body <;> simp [hs, hp]
    · unfold FormRequestImpl.run
      cases htf : F.toForm.try_into fself with
      | error e => simp [htf]
      | ok form =>
        cases hs : server (F.request form client) with
        | error e => simp [htf, hs]
        | ok res => cases hp : F.parse res.body <;> simp [htf, hs, hp]

/-- Witness for C2: statuses 200 and 500 with equal bodies give equal
results, and with a parsing body the run returns `Ok`. -/
theorem json_and_form_run_ignore_status_witness :
    ((demoJson.run 7 (OpenAiClient.new "k") (fun _ => .ok respOk200)).1 =
      (demoJson.run 7 (OpenAiClient.new "k") (fun _ => .ok respOk500)).1) ∧
    ((demoForm.run 7 (OpenAiClient.new "k") (fun _ => .ok respOk200)).1 =
      (demoForm.run 7 (OpenAiClient.new "k") (fun _ => .ok respOk500)).1) ∧
    isOkE (demoJson.run 7 (OpenAiClient.new "k") (fun _ => .ok respOk200)).1 =
      true := by
  have h := json_and_form_run_ignore_status demoJson 7 demoForm 7
    (OpenAiClient.new "k")
  refine ⟨(h.1 respOk200 respOk500 rfl).1, (h.1 respOk200 respOk500 rfl).2, ?_⟩
  exact (h.2 (fun _ => .ok respOk200)).1.mpr ⟨respOk200, rfl, rfl⟩

/-- C10: the library exposes a fifth request shape: `GetRequest::get` sends
one GET to exactly `base_url ++ ENDPOINT` (no identifier, no suffix) with the
bearer header and no body, parses whatever body is returned without
inspecting the status, and the `ModelsResponse` instance uses endpoint
`"/models"`. -/
theorem get_request_fifth_shape {TRes : Type} (G : GetRequestImpl TRes)
    (client : OpenAiClient) (server : Server)
    (parse : String → Option (ApiResponse ModelsResponse)) :
    (G.get client server).2 = [Event.httpSend (G.request client)] ∧
    (G.request client).method = .get ∧
    (G.request client).url = client.url ++ G.ENDPOINT ∧
    (G.request client).bearer = client.key ∧
    (G.request client).body = .empty ∧
    (∀ r1 r2 : HttpResponse, r1.body = r2.body →
      (G.get client (fun _ => .ok r1)).1 = (G.get client (fun _ => .ok r2)).1) ∧
    (isOkE (G.get client server).1 = true ↔
      ∃ res, server (G.request client) = .ok res ∧
        (G.parse res.body).isSome = true) ∧
    ((ModelsResponse.getImpl parse).request client).url =
      client.url ++ "/models" := by
  refine ⟨G.get_trace client server, rfl, rfl, rfl, rfl, ?_, ?_, rfl⟩
  · intro r1 r2 hb
    unfold GetRequestImpl.get
    simp only [hb]
  · unfold GetRequestImpl.get
    cases hs : server (G.request client) with
    | error e => simp [hs]
    | ok res => cases hp : G.parse res.body <;> simp [hs, hp]

/-- Witness for C10 with the concrete `ModelsResponse` instance. -/
theorem get_request_fifth_shape_witness :
    ((ModelsResponse.getImpl (fun _ => none)).request (OpenAiClient.new "k")).url =
      (OpenAiClient.new "k").url ++ "/models" ∧
    ((ModelsResponse.getImpl (fun _ => none)).get (OpenAiClient.new "k")
        (fun _ => .ok respOk200)).1 =
      ((ModelsResponse.getImpl (fun _ => none)).get (OpenAiClient.new "k")
        (fun _ => .ok respOk500)).1 := by
  have h := get_request_fifth_shape (ModelsResponse.getImpl (fun _ => none))
    (OpenAiClient.new "k") (fun _ => .ok respOk200) (fun _ => none)
  exact ⟨h.2.2.1, h.2.2.2.2.2.1 respOk200 respOk500 rfl⟩

/-- C8: `OpenAiClient::new(key)` carries the vendor's public API origin as its
base URL together with the given credential, agreeing in its `url` and `key`
fields with `with_url_and_client` at that default URL; and every request
operation (JSON, by-URL, get, form, download) attaches the handle's credential
as the bearer token of every request it sends. -/
theorem client_new_default_url_and_bearer
    {Req TRes BReq BRes GRes FReq FRes DReq : Type} (key : String)
    (J : JsonRequestImpl Req TRes) (jself : Req)
    (B : ByUrlRequestImpl BReq BRes) (bself : BReq)
    (G : GetRequestImpl GRes)
    (F : FormRequestImpl FReq FRes) (fself : FReq)
    (D : DownloadRequestImpl DReq) (dself : DReq)
    (client : OpenAiClient) (server : Server) :
    (OpenAiClient.new key).url = "https://api.openai.com/v1" ∧
    (OpenAiClient.new key).key = key ∧
    (OpenAiClient.new key).url =
      (OpenAiClient.with_url_and_client key OpenAiClient.URL Client.new).url ∧
    (OpenAiClient.new key).key =
      (OpenAiClient.with_url_and_client key OpenAiClient.URL Client.new).key ∧
    (∀ e ∈ (J.run jself client server).2, e.bearerIs client.key) ∧
    (∀ e ∈ (B.run bself client server).2, e.bearerIs client.key) ∧
    (∀ e ∈ (G.get client server).2, e.bearerIs client.key) ∧
    (∀ e ∈ (F.run fself client server).2, e.bearerIs client.key) ∧
    (∀ e ∈ (D.download dself client server).2, e.bearerIs client.key) := by
  refine ⟨rfl, rfl, rfl, rfl, ?_, ?_, ?_, ?_, ?_⟩
  · intro e he
    rw [J.json_run_trace jself client server] at he
    simp at he
    subst he
    exact rfl
  · intro e he
    rw [B.by_url_run_trace bself client server] at he
    simp at he
    subst he
    exact rfl
  · intro e he
    rw [G.get_trace client server] at he
    simp at he
    subst he
    exact rfl
  · intro e he
    obtain ⟨form, _, rfl⟩ := F.run_trace_sub fself client server e he
    exact rfl
  · intro e he
    rw [D.download_trace dself client server] at he
    simp at he
    subst he
    exact rfl

/-- Witness for C8 at a concrete key, client and one concrete sent event per
request shape. -/
theorem client_new_default_url_and_bearer_witness :
    (OpenAiClient.new "k").url = "https://api.openai.com/v1" ∧
    Event.bearerIs (OpenAiClient.new "k").key
      (Event.httpSend (demoJson.request 7 (OpenAiClient.new "k"))) ∧
    Event.bearerIs (OpenAiClient.new "k").key
      (Event.httpSend (dlDemo.request "file-1" (OpenAiClient.new "k"))) := by
  have h := client_new_default_url_and_bearer "k" demoJson 7
    (ModelRequest.byUrlImpl (fun _ => none)) ⟨"gpt-x"⟩
    (ModelsResponse.getImpl (fun _ => none)) demoForm 7 dlDemo "file-1"
    (OpenAiClient.new "k") (fun _ => .error "net down")
  refine ⟨h.1, ?_, ?_⟩
  · exact h.2.2.2.2.1 _ (by
      rw [JsonRequestImpl.json_run_trace]
      exact List.Mem.head _)
  · exact h.2.2.2.2.2.2.2.2 _ (by
      rw [DownloadRequestImpl.download_trace]
      exact List.Mem.head _)

/-- C9: on every invocation of `download_to_file` the target file is created
— truncating any existing file — before the HTTP request is issued: every
`httpSend` in the trace is strictly preceded by the `fileCreate` of the
target path; once creation succeeds, the pre-existing content at the target
influences neither the result nor the final content there (it is destroyed);
and a file exists at the target afterwards even when the download fails. -/
theorem download_to_file_truncates_before_request {Req : Type}
    (D : DownloadRequestImpl Req) (self : Req) (client : OpenAiClient)
    (server : Server) (disk : Disk) (fs fs2 : FileSystemState) (target : String) :
    (∀ i req,
      (D.download_to_file self client server disk fs target).2.2.get? i =
        some (.httpSend req) →
      ∃ j, j < i ∧
        (D.download_to_file self client server disk fs target).2.2.get? j =
          some (.fileCreate target)) ∧
    (disk.createOk target = true → (∀ p, p ≠ target → fs p = fs2 p) →
      (D.download_to_file self client server disk fs target).1 =
        (D.download_to_file self client server disk fs2 target).1 ∧
      (D.download_to_file self client server disk fs target).2.1 target =
        (D.download_to_file self client server disk fs2 target).2.1 target) ∧
    (disk.createOk target = true →
      ∃ c, (D.download_to_file self client server disk fs target).2.1 target =
        some c) := by
  refine ⟨?_, ?_, ?_⟩
  · intro i req h
    cases hc : disk.createOk target with
    | false =>
      rw [D.download_to_file_create_fail self client server disk fs target hc] at h
      simp at h
    | true =>
      have htr : ∃ tr, (D.download_to_file self client server disk fs target).2.2 =
          Event.fileCreate target :: tr := by
        cases hd : (D.download self client server).1 with
        | error e =>
          rw [D.download_to_file_dl_error self client server disk fs target hc e hd]
          exact ⟨_, rfl⟩
        | ok chunks =>
          rw [D.download_to_file_dl_ok self client server disk fs target hc
            chunks hd]
          exact ⟨_, rfl⟩
      obtain ⟨tr, htr⟩ := htr
      rw [htr] at h
      cases i with
      | zero => simp at h
      | succ n => exact ⟨0, Nat.succ_pos n, by rw [htr]; rfl⟩
  · intro hc hagree
    cases hd : (D.download self client server).1 with
    | error e =>
      rw [D.download_to_file_dl_error self client server disk fs target hc e hd,
        D.download_to_file_dl_error self client server disk fs2 target hc e hd]
      exact ⟨rfl, by simp⟩
    | ok chunks =>
      rw [D.download_to_file_dl_ok self client server disk fs target hc chunks hd,
        D.download_to_file_dl_ok self client server disk fs2 target hc chunks hd]
      exact write_chunks_congr disk target chunks _ _ (by simp)
  · intro hc
    cases hd : (D.download self client server).1 with
    | error e =>
      rw [D.download_to_file_dl_error self client server disk fs target hc e hd]
      exact ⟨[], by simp⟩
    | ok chunks =>
      rw [D.download_to_file_dl_ok self client server disk fs target hc chunks hd]
      exact write_chunks_keeps_some disk target chunks _ [] (by simp)

/-- Witness for C9: a pre-existing `[9, 9]` at the target leads to the same
outcome as an empty filesystem, and after a failed download a file exists at
the target. -/
theorem download_to_file_truncates_before_request_witness :
    ((dlDemo.download_to_file "f1" (OpenAiClient.new "k") srvNotFound diskFree
        fsOld "out.bin").1 =
      (dlDemo.download_to_file "f1" (OpenAiClient.new "k") srvNotFound diskFree
        fsEmpty "out.bin").1) ∧
    ((dlDemo.download_to_file "f1" (OpenAiClient.new "k") srvNotFound diskFree
        fsOld "out.bin").2.1 "out.bin" =
      (dlDemo.download_to_file "f1" (OpenAiClient.new "k") srvNotFound diskFree
        fsEmpty "out.bin").2.1 "out.bin") ∧
    (∃ c, (dlDemo.download_to_file "f1" (OpenAiClient.new "k") srvNotFound
        diskFree fsOld "out.bin").2.1 "out.bin" = some c) := by
  have h := download_to_file_truncates_before_request dlDemo "f1"
    (OpenAiClient.new "k") srvNotFound diskFree fsOld fsEmpty "out.bin"
  have h2 := h.2.1 rfl (fun p hp => by simp [fsOld, fsEmpty, hp])
  exact ⟨h2.1, h2.2, h.2.2 rfl⟩

/-- C1 fails on the code: against a server on which the identifier does not
exist (it answers 404 to everything), `download_to_file` does fail, but a
file IS created at the target path (empty), because `File::create` runs
before the request is sent; "no file is created at the target path" is
false. -/
theorem download_to_file_no_file_counterexample :
    isOkE (dlDemo.download_to_file "file-404" (OpenAiClient.new "k") srvNotFound
      diskFree fsEmpty "out.bin").1 = false ∧
    (dlDemo.download_to_file "file-404" (OpenAiClient.new "k") srvNotFound
      diskFree fsEmpty "out.bin").2.1 "out.bin" = some [] ∧
    ¬ ((dlDemo.download_to_file "file-404" (OpenAiClient.new "k") srvNotFound
      diskFree fsEmpty "out.bin").2.1 "out.bin" = none) := by
  refine ⟨rfl, rfl, by decide⟩

/-- C1 amended: if the server never answers the download request with
anything but a transport failure or a client/server-error status (400–599),
`download_to_file` fails with that error — but an empty file is created at
the target path (truncating any pre-existing file), creation itself
permitting. -/
theorem download_to_file_missing_id_fails_with_empty_file {Req : Type}
    (D : DownloadRequestImpl Req) (self : Req) (client : OpenAiClient)
    (server : Server) (disk : Disk) (fs : FileSystemState) (target : String)
    (hc : disk.createOk target = true)
    (hfail : ∀ res, server (D.request self client) = .ok res →
      400 ≤ res.status ∧ res.status ≤ 599) :
    isOkE (D.download_to_file self client server disk fs target).1 = false ∧
    (D.download_to_file self client server disk fs target).2.1 target =
      some [] := by
  have hd : ∃ e, (D.download self client server).1 = .error e := by
    cases hs : server (D.request self client) with
    | error e => exact ⟨e, D.download_fst_of_server_error self client server e hs⟩
    | ok res =>
      obtain ⟨h4, h5⟩ := hfail res hs
      exact ⟨_, D.download_fst_of_error_status self client server res hs h4 h5⟩
  obtain ⟨e, hd⟩ := hd
  rw [D.download_to_file_dl_error self client server disk fs target hc e hd]
  exact ⟨rfl, by simp⟩

/-- Witness for the amended C1 against the concrete 404 server. -/
theorem download_to_file_missing_id_fails_with_empty_file_witness :
    isOkE (dlDemo.download_to_file "file-404" (OpenAiClient.new "k") srvNotFound
      diskFree fsOld "out.bin").1 = false ∧
    (dlDemo.download_to_file "file-404" (OpenAiClient.new "k") srvNotFound
      diskFree fsOld "out.bin").2.1 "out.bin" = some [] :=
  download_to_file_missing_id_fails_with_empty_file dlDemo "file-404"
    (OpenAiClient.new "k") srvNotFound diskFree fsOld "out.bin" rfl
    (fun res hres => by
      injection hres with h
      rw [← h]
      decide)

/-- C4 as stated fails: a 304 Not Modified status is not a success status,
yet `error_for_status` only rejects 400–599 and passes it through, so
`download` exposes the byte stream on this non-success status. -/
theorem download_non_success_not_always_error :
    isOkE (dlDemo.download "file-1" (OpenAiClient.new "k") srvNotModified).1 =
      true ∧
    isSuccessStatus 304 = false := ⟨rfl, rfl⟩

/-- C4 amended: `download` returns an error — and exposes no byte stream —
whenever the initial request yields a client- or server-error status
(400–599); the status check happens before any chunk of the body is
consumed (an `Ok` result is the response's chunk stream untouched); and a
chunk-read failure mid-stream surfaces as an error from the chunk-consuming
`download_to_file`. -/
theorem download_error_status_and_chunk_failure {Req : Type}
    (D : DownloadRequestImpl Req) (self : Req) (client : OpenAiClient)
    (server : Server) :
    (∀ res, server (D.request self client) = .ok res →
      400 ≤ res.status → res.status ≤ 599 →
      (D.download self client server).1 = .error "HTTP status error") ∧
    (∀ res, server (D.request self client) = .ok res →
      ∀ chunks, (D.download self client server).1 = .ok chunks →
        chunks = res.chunks) ∧
    (∀ chunks e, (D.download self client server).1 = .ok chunks →
      Except.error e ∈ chunks →
      ∀ disk fs target,
        isOkE (D.download_to_file self client server disk fs target).1 =
          false) := by
  refine ⟨?_, ?_, ?_⟩
  · intro res hs h4 h5
    exact D.download_fst_of_error_status self client server res hs h4 h5
  · intro res hs chunks hok
    by_cases hb : 400 ≤ res.status ∧ res.status ≤ 599
    · rw [D.download_fst_of_error_status self client server res hs hb.1 hb.2] at hok
      cases hok
    · rw [D.download_fst_of_pass_status self client server res hs hb] at hok
      injection hok with h
      exact h.symm
  · intro chunks e hok hmem disk fs target
    cases hc : disk.createOk target with
    | false =>
      rw [D.download_to_file_create_fail self client server disk fs target hc]
      rfl
    | true =>
      rw [D.download_to_file_dl_ok self client server disk fs target hc chunks hok]
      exact write_chunks_error_of_mem disk target chunks e hmem _

/-- Witness for the amended C4: a 404 yields the status error, and a stream
failing mid-way makes `download_to_file` fail. -/
theorem download_error_status_and_chunk_failure_witness :
    (dlDemo.download "f404" (OpenAiClient.new "k") srvNotFound).1 =
      .error "HTTP status error" ∧
    isOkE (dlDemo.download_to_file "f1" (OpenAiClient.new "k") srvChunkFail
      diskFree fsEmpty "out.bin").1 = false := by
  constructor
  · exact (download_error_status_and_chunk_failure dlDemo "f404"
      (OpenAiClient.new "k") srvNotFound).1 respNotFound rfl (by decide) (by decide)
  · exact (download_error_status_and_chunk_failure dlDemo "f1"
      (OpenAiClient.new "k") srvChunkFail).2.2
      [.ok [1], .error "connection reset"] "connection reset" rfl
      (List.Mem.tail _ (List.Mem.head _)) diskFree fsEmpty "out.bin"

/-- C5: for a form request whose multipart conversion reads a local file, a
file that fails to open (e.g. the path does not exist) makes `run` return
that I/O error with an empty event trace: the conversion is awaited and must
succeed before any network call is attempted. -/
theorem form_run_missing_file_no_network {Req TRes : Type}
    (F : FormRequestImpl Req TRes) (self : Req) (client : OpenAiClient)
    (server : Server) (ufs : UploadFs) (path : FsPath)
    (g : Part → MultipartForm) (os : OsString) (name e : String)
    (hconv : F.toForm.try_from self = (file_to_part ufs path).map g)
    (hfn : path.file_name = some os) (hts : os.to_str = some name)
    (hopen : ufs.openFile path = .error e) :
    (F.run self client server).1 = .error e ∧
    (F.run self client server).2 = [] := by
  have hfp : file_to_part ufs path = .error e := by
    simp [file_to_part, hfn, hts, hopen]
  have htf : F.toForm.try_into self = .error e := by
    unfold AsyncTryFromImpl.try_into
    rw [hconv, hfp]
    rfl
  unfold FormRequestImpl.run
  rw [htf]
  exact ⟨rfl, rfl⟩

/-- Witness for C5: uploading from a missing path fails with the open error
and sends nothing. -/
theorem form_run_missing_file_no_network_witness :
    (demoUploadForm.run () (OpenAiClient.new "k") (fun _ => .ok respOk200)).1 =
      .error "No such file or directory (os error 2)" ∧
    (demoUploadForm.run () (OpenAiClient.new "k") (fun _ => .ok respOk200)).2 =
      [] :=
  form_run_missing_file_no_network demoUploadForm () (OpenAiClient.new "k")
    (fun _ => .ok respOk200) missingFs missingPath (fun p => [p])
    { to_str := some "missing.png" } "missing.png"
    "No such file or directory (os error 2)" rfl rfl rfl rfl

end OpenAiRs
